import Mathlib

/-!
Verification development for the phpstan-ls-lite language server.

The definitions below are a shallow embedding of the TypeScript sources:
  * src/diagnostics/phpstanDiagnostics.ts (output parsing, diagnostic
    synthesis, log redaction, the per-document analysis run),
  * src/runtime/phpstanCommand.ts (analyze command construction),
  * src/runtime/phpstanEditorMode.ts (editor-mode version negotiation and
    argument rewriting),
  * src/reflection/phpstanReflectionClient.ts (bridge pending-request
    lifecycle).

JavaScript strings are modelled as Lean `String`, JavaScript numbers that
hold line numbers and exit codes as `Int`, `number | null` as `Option Int`,
and the outcome of `JSON.parse` wrapped in try/catch as `Option Json`
(`none` is the caught-exception branch).
-/

namespace PhpstanLsLite

/-- Boolean prefix test on character lists. -/
def isPrefixOfB : List Char → List Char → Bool
  | [], _ => true
  | _ :: _, [] => false
  | a :: as, b :: bs => a == b && isPrefixOfB as bs

/-- Boolean substring test on character lists: models JavaScript
`String.prototype.includes`. -/
def containsSub (needle : List Char) : List Char → Bool
  | [] => isPrefixOfB needle []
  | c :: rest => isPrefixOfB needle (c :: rest) || containsSub needle rest

/-- ASCII lowercasing of a string: models `String.prototype.toLowerCase`
on the ASCII arguments the server handles. -/
def lowerStr (s : String) : String :=
  String.mk (s.data.map Char.toLower)

/-- Split a character list on every occurrence of a separator character:
models `String.prototype.split` with a one-character separator. -/
def splitOnChar (sep : Char) : List Char → List (List Char)
  | [] => [[]]
  | c :: rest =>
    match splitOnChar sep rest with
    | [] => if c = sep then [[], []] else [[c]]
    | g :: gs => if c = sep then [] :: g :: gs else (c :: g) :: gs

/-- `String.prototype.split` with a one-character separator, on strings. -/
def splitStr (sep : Char) (s : String) : List String :=
  (splitOnChar sep s.data).map String.mk

/-- `String.prototype.trim`, restricted to the ASCII whitespace the
server's process output contains. -/
def trimStr (s : String) : String :=
  String.mk (((s.data.dropWhile Char.isWhitespace).reverse.dropWhile
    Char.isWhitespace).reverse)

/-- `path.isAbsolute` (node:path, POSIX): the path starts with `/`. -/
def isAbsolutePath (s : String) : Bool :=
  match s.data with
  | '/' :: _ => true
  | _ => false

/-- From `maskArgumentToken` in phpstanDiagnostics.ts: the fixed list of
sensitive key names. -/
def sensitiveKeys : List String :=
  ["token", "password", "secret", "apikey", "api-key"]

/-- From `maskCommandArgs` in phpstanDiagnostics.ts: the fixed set of
sensitive flags whose following token is masked. -/
def sensitiveFlags : List String :=
  ["--token", "--password", "--secret", "--api-key", "--apikey"]

/-- Split a character list at the first occurrence of a character,
returning the part before and the part after; `none` when the character
does not occur.  Models `token.indexOf` plus the two slices. -/
def splitAtFirst (sep : Char) : List Char → Option (List Char × List Char)
  | [] => none
  | c :: rest =>
    if c = sep then some ([], rest)
    else
      match splitAtFirst sep rest with
      | none => none
      | some (pre, post) => some (c :: pre, post)

/-- `maskArgumentToken` from phpstanDiagnostics.ts: masks the value of a
`--flag=value` token whose lowercased key contains a sensitive key name. -/
def maskArgumentToken (token : String) : String :=
  match splitAtFirst '=' token.data with
  | none => token
  | some (pre, _) =>
    let key := (pre.map Char.toLower)
    if sensitiveKeys.any (fun s => containsSub s.data key) then
      String.mk (pre ++ ['=']) ++ "***"
    else token

/-- Loop body of `maskCommandArgs` from phpstanDiagnostics.ts; the Bool
argument is the `maskNext` flag. -/
def maskCommandArgsAux : Bool → List String → List String
  | _, [] => []
  | true, _ :: rest => "***" :: maskCommandArgsAux false rest
  | false, arg :: rest =>
    if lowerStr arg ∈ sensitiveFlags then
      arg :: maskCommandArgsAux true rest
    else
      maskArgumentToken arg :: maskCommandArgsAux false rest

/-- `maskCommandArgs` from phpstanDiagnostics.ts. -/
def maskCommandArgs (args : List String) : List String :=
  maskCommandArgsAux false args

/-- `formatCommandForLog` from phpstanDiagnostics.ts. -/
def formatCommandForLog (command : String) (args : List String) : String :=
  String.intercalate " " (command :: maskCommandArgs args)

/-! ### Editor-mode version negotiation (phpstanEditorMode.ts) -/

/-- `MIN_SUPPORTED_V1` from phpstanEditorMode.ts. -/
def MIN_SUPPORTED_V1 : List Nat := [1, 12, 27]

/-- `MIN_SUPPORTED_V2` from phpstanEditorMode.ts. -/
def MIN_SUPPORTED_V2 : List Nat := [2, 1, 17]

/-- All components zero: the padded tail comparison of `compareVersions`
against an exhausted other side. -/
def allZero : List Nat → Bool
  | [] => true
  | n :: ns => n == 0 && allZero ns

/-- `compareVersions` from phpstanEditorMode.ts: componentwise comparison
with implicit zero padding (`left[i] ?? 0`), returning -1/0/1. -/
def compareVersions : List Nat → List Nat → Int
  | [], rs => if allZero rs then 0 else -1
  | l :: ls, [] => if allZero (l :: ls) then 0 else 1
  | l :: ls, r :: rs =>
    if l < r then -1 else if r < l then 1 else compareVersions ls rs

/-- Maximal leading run of decimal digits of a character list, with the
rest. -/
def digitRun : List Char → List Char × List Char
  | [] => ([], [])
  | c :: rest =>
    if c.isDigit then
      let (run, rem) := digitRun rest
      (c :: run, rem)
    else ([], c :: rest)

/-- Decimal value of a digit list. -/
def digitsToNat (ds : List Char) : Nat :=
  ds.foldl (fun acc c => acc * 10 + (c.toNat - 48)) 0

/-- Attempt to match the regular expression from `extractSemver`
(three dot-separated decimal runs) at the start of a character list. -/
def matchSemverAt (cs : List Char) : Option (Nat × Nat × Nat) :=
  let (d1, r1) := digitRun cs
  if d1.isEmpty then none
  else
    match r1 with
    | '.' :: r2 =>
      let (d2, r3) := digitRun r2
      if d2.isEmpty then none
      else
        match r3 with
        | '.' :: r4 =>
          let (d3, _) := digitRun r4
          if d3.isEmpty then none
          else some (digitsToNat d1, digitsToNat d2, digitsToNat d3)
        | _ => none
    | _ => none

/-- `extractSemver` from phpstanEditorMode.ts: leftmost match of the
`major.minor.patch` pattern in the version output. -/
def extractSemver : List Char → Option (Nat × Nat × Nat)
  | [] => none
  | c :: rest =>
    match matchSemverAt (c :: rest) with
    | some v => some v
    | none => extractSemver rest

/-- `isPhpstanEditorModeSupported` from phpstanEditorMode.ts. -/
def isPhpstanEditorModeSupported (versionOutput : String) : Bool :=
  if containsSub "-dev@".data versionOutput.data then true
  else
    match extractSemver versionOutput.data with
    | none => false
    | some (major, minor, patch) =>
      if major = 1 then 0 ≤ compareVersions [major, minor, patch] MIN_SUPPORTED_V1
      else if major = 2 then 0 ≤ compareVersions [major, minor, patch] MIN_SUPPORTED_V2
      else decide (2 < major)

/-- Classification of a version probe in `detectEditorMode`
(phpstanDiagnostics.ts): `supported = result.code === 0 &&
isPhpstanEditorModeSupported(result.stdout)`. -/
def probeSupported (code : Option Int) (stdout : String) : Bool :=
  code == some 0 && isPhpstanEditorModeSupported stdout

/-! ### JSON values and output parsing (phpstanDiagnostics.ts) -/

/-- Parsed JSON values.  `JSON.parse` wrapped in the source's try/catch is
modelled as an `Option Json` input: `none` is the caught-exception branch
for invalid JSON text.  Numbers are modelled as `Int`, covering the
integer line numbers the structured PHPStan output carries. -/
inductive Json where
  | null : Json
  | bool (b : Bool) : Json
  | num (n : Int) : Json
  | str (s : String) : Json
  | arr (items : List Json) : Json
  | obj (fields : List (String × Json)) : Json

/-- Property access on a parsed JSON object (first binding wins;
`JSON.parse` never produces duplicate keys). -/
def getField (fields : List (String × Json)) (key : String) : Option Json :=
  (fields.find? (fun f => f.1 == key)).map (fun f => f.2)

/-- POSIX path-segment normalization: drops empty and `.` segments and
resolves `..` against the previous segment (dropping it at the root),
modelling `path.normalize` on the absolute paths the server passes. -/
def normSegsAbs (segs : List String) : List String :=
  segs.foldl
    (fun acc seg =>
      if seg = "" || seg = "." then acc
      else if seg = ".." then acc.dropLast
      else acc ++ [seg])
    []

/-- `path.normalize` (node:path, POSIX) as used by `normalizePath` in
phpstanDiagnostics.ts, restricted to absolute paths; a relative path is
returned with its segments cleaned the same way. -/
def normalizePath (s : String) : String :=
  if isAbsolutePath s then
    let segs := normSegsAbs (splitStr '/' s)
    if segs.isEmpty then "/" else "/" ++ String.intercalate "/" segs
  else
    let segs := normSegsAbs (splitStr '/' s)
    if segs.isEmpty then "." else String.intercalate "/" segs

/-- `path.resolve(cwd, p)` (node:path, POSIX) for an absolute `cwd`:
an absolute `p` is normalized, a relative one is joined onto `cwd`. -/
def resolvePath (cwd p : String) : String :=
  if isAbsolutePath p then normalizePath p
  else normalizePath (cwd ++ "/" ++ p)

/-- LSP position, as produced by phpstanDiagnostics.ts. -/
structure Position where
  line : Int
  character : Int
deriving DecidableEq, Repr

/-- LSP range; `stop` is the source's `end` field (a Lean keyword). -/
structure Range where
  start : Position
  stop : Position
deriving DecidableEq, Repr

/-- LSP diagnostic as built by phpstanDiagnostics.ts (severity 1 is
`DiagnosticSeverity.Error`). -/
structure Diagnostic where
  severity : Int
  range : Range
  message : String
  source : String
deriving DecidableEq, Repr

/-- `Array.prototype.join` with the `"\n"` separator, as used for the
auxiliary note lines of `toDiagnostic`. -/
def joinLines : List String → String
  | [] => ""
  | [l] => l
  | l :: rest => l ++ "\n" ++ joinLines rest

/-- The `notes` array built by `toDiagnostic`: the `identifier` and `tip`
fields, each kept only when it is a non-empty string. -/
def noteLines (entry : List (String × Json)) : List String :=
  (match getField entry "identifier" with
   | some (Json.str ident) => if ident = "" then [] else ["identifier: " ++ ident]
   | _ => []) ++
  (match getField entry "tip" with
   | some (Json.str tip) => if tip = "" then [] else ["tip: " ++ tip]
   | _ => [])

/-- The raw 1-based line read by `toDiagnostic`: the numeric `line`
field, defaulting to 1 when absent or not a number. -/
def rawLineOf (entry : List (String × Json)) : Int :=
  match getField entry "line" with
  | some (Json.num n) => n
  | _ => 1

/-- `toDiagnostic` from phpstanDiagnostics.ts, on the fields of a message
object: requires a non-empty string `message`, defaults a missing or
non-numeric `line` to 1, converts to a zero-based line via
`max 0 (line - 1)`, and appends string `identifier`/`tip` fields as
auxiliary message lines. -/
def toDiagnostic (entry : List (String × Json)) : Option Diagnostic :=
  match getField entry "message" with
  | some (Json.str msg) =>
    if msg = "" then none
    else
      let line := max 0 (rawLineOf entry - 1)
      let notes := noteLines entry
      let suffix := if notes.isEmpty then "" else "\n" ++ joinLines notes
      some
        { severity := 1
          range := { start := { line := line, character := 0 },
                     stop := { line := line, character := 1 } }
          message := msg ++ suffix
          source := "phpstan" }
  | _ => none

/-- `createExecutionFailureDiagnostic` from phpstanDiagnostics.ts:
synthesizes one diagnostic from the first non-empty stderr line, with a
fixed text when stderr has none; `String(code)` renders `null` for a
missing exit code. -/
def createExecutionFailureDiagnostic (code : Option Int) (stderr : String) : Diagnostic :=
  let firstLine := ((splitStr '\n' stderr).map trimStr).find? (fun l => l ≠ "")
  let details := firstLine.getD "Unknown PHPStan execution error."
  let codeText := match code with | none => "null" | some n => toString n
  { severity := 1
    range := { start := { line := 0, character := 0 },
               stop := { line := 0, character := 1 } }
    source := "phpstan-ls-lite"
    message := "PHPStan execution failed (exit code: " ++ codeText ++ "): " ++ details }

/-- `createGlobalErrorDiagnostic` from phpstanDiagnostics.ts. -/
def createGlobalErrorDiagnostic (message : String) : Diagnostic :=
  { severity := 1
    range := { start := { line := 0, character := 0 },
               stop := { line := 0, character := 1 } }
    source := "phpstan"
    message := message }

/-- `hasPhpSyntaxError` from phpstanDiagnostics.ts: textual heuristic on
the lowercased concatenation of stdout and stderr. -/
def hasPhpSyntaxError (stdout stderr : String) : Bool :=
  let text := (lowerStr (stdout ++ "\n" ++ stderr)).data
  containsSub "parse error".data text || containsSub "syntax error".data text

/-- The `files` record of the parsed output (`output.files ?? {}`); a
non-object value yields no path-keyed entries. -/
def outputFiles : Json → List (String × Json)
  | Json.obj fields =>
    match getField fields "files" with
    | some (Json.obj fileFields) => fileFields
    | _ => []
  | _ => []

/-- `normalizeFileEntries` from phpstanDiagnostics.ts: keys the file
entries by normalized path, resolving relative paths against `cwd`. -/
def normalizeFileEntries (files : List (String × Json)) (cwd : String) :
    List (String × Json) :=
  files.map (fun f =>
    (if isAbsolutePath f.1 then normalizePath f.1
     else normalizePath (resolvePath cwd f.1), f.2))

/-- Lookup in the entry map built by `normalizeFileEntries`; a later
`Map.set` for the same key overwrites, so the last binding wins. -/
def lookupLast (entries : List (String × Json)) (key : String) : Option Json :=
  ((entries.reverse).find? (fun f => f.1 == key)).map (fun f => f.2)

/-- The `messages` array of a file entry, when the entry is an object
holding one (`!fileEntry || !Array.isArray(fileEntry.messages)` guard). -/
def entryMessages : Json → Option (List Json)
  | Json.obj fields =>
    match getField fields "messages" with
    | some (Json.arr ms) => some ms
    | _ => none
  | _ => none

/-- Per-message loop shared by the extraction functions: only object
entries can produce a diagnostic, and `toDiagnostic` may reject one. -/
def messagesToDiagnostics (ms : List Json) : List Diagnostic :=
  ms.filterMap (fun m =>
    match m with
    | Json.obj fields => toDiagnostic fields
    | _ => none)

/-- `extractDiagnosticsForFile` from phpstanDiagnostics.ts, taking the
caught `JSON.parse` outcome as input: empty on parse failure, on a
non-object result, on a missing target entry, and on a non-array
`messages`. -/
def extractDiagnosticsForFile (parsed : Option Json) (targetFilePath cwd : String) :
    List Diagnostic :=
  match parsed with
  | some (Json.obj fields) =>
    let normalizedTarget := normalizePath targetFilePath
    let entries := normalizeFileEntries (outputFiles (Json.obj fields)) cwd
    match lookupLast entries normalizedTarget with
    | some entry =>
      match entryMessages entry with
      | some ms => messagesToDiagnostics ms
      | none => []
    | none => []
  | _ => []

/-- `extractGlobalErrors` from phpstanDiagnostics.ts, taking the caught
`JSON.parse` outcome as input: converts non-blank top-level error strings
into diagnostics anchored at position zero. -/
def extractGlobalErrors (parsed : Option Json) : List Diagnostic :=
  match parsed with
  | some (Json.obj fields) =>
    match getField fields "errors" with
    | some (Json.arr errs) =>
      errs.filterMap (fun e =>
        match e with
        | Json.str s =>
          if trimStr s = "" then none
          else some (createGlobalErrorDiagnostic (trimStr s))
        | _ => none)
    | _ => []
  | _ => []

/-! ### Analyze command construction (phpstanCommand.ts, phpstanEditorMode.ts) -/

/-- A resolved PHPStan runtime (phpstanCommand.ts), reduced to the data
the command builder reads: the invocation target (`executablePath` for a
file runtime, `command` otherwise), its leading arguments, and the
working directory. -/
structure ResolvedPhpstanRuntime where
  commandName : String
  runtimeArgs : List String
  workingDirectory : String
deriving DecidableEq, Repr

/-- `PhpstanAnalyzeCommand` from phpstanCommand.ts. -/
structure PhpstanAnalyzeCommand where
  command : String
  args : List String
  cwd : String
deriving DecidableEq, Repr

/-- `normalizeRuntimeArgs` from phpstanCommand.ts: strips a duplicate
leading `analyze`/`analyse` subcommand token. -/
def normalizeRuntimeArgs (runtimeArgs : List String) : List String :=
  match runtimeArgs with
  | [] => []
  | first :: rest =>
    if first = "analyze" || first = "analyse" then rest else runtimeArgs

/-- `buildPhpstanAnalyzeCommand` from phpstanCommand.ts. -/
def buildPhpstanAnalyzeCommand (resolvedRuntime : ResolvedPhpstanRuntime)
    (targets : List String) (configPath : Option String)
    (errorFormat : String) (options : List String) : PhpstanAnalyzeCommand :=
  let normalizedRuntimeArgs := normalizeRuntimeArgs resolvedRuntime.runtimeArgs
  let args :=
    normalizedRuntimeArgs ++
      ["analyze", "--error-format=" ++ errorFormat, "--no-progress", "--no-interaction"] ++
      (match configPath with | some c => ["-c", c] | none => []) ++
      options ++ ["--"] ++ targets
  { command := resolvedRuntime.commandName
    args := args
    cwd := resolvedRuntime.workingDirectory }

/-- `injectArgsBeforeTargetSeparator` from phpstanDiagnostics.ts. -/
def injectArgsBeforeTargetSeparator (originalArgs injectedArgs : List String) :
    List String :=
  if injectedArgs.isEmpty then originalArgs
  else
    match originalArgs.findIdx? (fun a => a == "--") with
    | none => originalArgs ++ injectedArgs
    | some separatorIndex =>
      originalArgs.take separatorIndex ++ injectedArgs ++ originalArgs.drop separatorIndex

/-- `CommandOverride` from phpstanDiagnostics.ts (the non-null payload). -/
structure CommandOverride where
  command : String
  args : List String
deriving DecidableEq, Repr

/-- `applyCommandOverride` from phpstanDiagnostics.ts: replaces the
invocation target and prepends the override's leading args. -/
def applyCommandOverride (commandSpec : PhpstanAnalyzeCommand)
    (commandOverride : Option CommandOverride) : PhpstanAnalyzeCommand :=
  match commandOverride with
  | none => commandSpec
  | some ov =>
    { command := ov.command
      args := ov.args ++ commandSpec.args
      cwd := commandSpec.cwd }

/-- `splitByTargetSeparator` from phpstanEditorMode.ts. -/
def splitByTargetSeparator (args : List String) : List String × List String :=
  match args.findIdx? (fun a => a == "--") with
  | none => (args, [])
  | some separatorIndex => (args.take separatorIndex, args.drop (separatorIndex + 1))

/-- `applyEditorModeArgs` from phpstanEditorMode.ts. -/
def applyEditorModeArgs (baseCommand : PhpstanAnalyzeCommand)
    (tempFilePath originalFilePath : String) : PhpstanAnalyzeCommand :=
  let base := (splitByTargetSeparator baseCommand.args).1
  { command := baseCommand.command
    cwd := baseCommand.cwd
    args := base ++
      ["--tmp-file", tempFilePath, "--instead-of", originalFilePath, "--", originalFilePath] }

/-- `applyTempFileFallbackArgs` from phpstanEditorMode.ts. -/
def applyTempFileFallbackArgs (baseCommand : PhpstanAnalyzeCommand)
    (tempFilePath : String) : PhpstanAnalyzeCommand :=
  let base := (splitByTargetSeparator baseCommand.args).1
  { command := baseCommand.command
    cwd := baseCommand.cwd
    args := base ++ ["--", tempFilePath] }

/-- Settings slice the command pipeline reads (phpstanDiagnostics.ts). -/
structure PhpstanSettings where
  extraArgs : List String
  commandOverride : Option CommandOverride
deriving DecidableEq, Repr

/-- The command-shaping part of `buildAnalyzeCommandForDocument` from
phpstanDiagnostics.ts: base command for the original file, extra args
injected before the separator, user override applied, then the
editor-mode or temp-file-fallback rewrite depending on support. -/
def buildAnalyzeCommandForDocument (resolvedRuntime : ResolvedPhpstanRuntime)
    (settings : PhpstanSettings) (filePath tempFilePath : String)
    (editorModeSupported : Bool) : PhpstanAnalyzeCommand :=
  let baseCommand := buildPhpstanAnalyzeCommand resolvedRuntime [filePath] none "json" []
  let extraArgsCommand : PhpstanAnalyzeCommand :=
    { command := baseCommand.command
      cwd := baseCommand.cwd
      args := injectArgsBeforeTargetSeparator baseCommand.args settings.extraArgs }
  let command := applyCommandOverride extraArgsCommand settings.commandOverride
  if editorModeSupported then applyEditorModeArgs command tempFilePath filePath
  else applyTempFileFallbackArgs command tempFilePath

/-- `buildAnalyzeCommandForSavedFile` from phpstanDiagnostics.ts. -/
def buildAnalyzeCommandForSavedFile (resolvedRuntime : ResolvedPhpstanRuntime)
    (settings : PhpstanSettings) (filePath : String) : PhpstanAnalyzeCommand :=
  let baseCommand := buildPhpstanAnalyzeCommand resolvedRuntime [filePath] none "json" []
  let extraArgsCommand : PhpstanAnalyzeCommand :=
    { command := baseCommand.command
      cwd := baseCommand.cwd
      args := injectArgsBeforeTargetSeparator baseCommand.args settings.extraArgs }
  applyCommandOverride extraArgsCommand settings.commandOverride

/-! ### The per-document analysis run (`runForDocument`, phpstanDiagnostics.ts) -/

/-- `CommandResult` from phpstanDiagnostics.ts: `code` is `number | null`
(`some (-1)` is the spawn-failure sentinel, `none` the `null` of a
signal-terminated process). -/
structure CommandResult where
  code : Option Int
  stdout : String
  stderr : String
deriving DecidableEq, Repr

/-- Decision taken by the synchronous segment of `runForDocument` after
the primary process completes and the staleness re-check passed. -/
inductive PostExecDecision where
  | publishNow (diags : List Diagnostic)
  | runFallback
deriving DecidableEq, Repr

/-- Lines 543-601 of phpstanDiagnostics.ts (up to the fallback await):
the spawn-failure branch, the per-file / temp-path / global-error
extraction cascade, and the failed-run branching on the syntax-error
signal.  `parse` is the `JSON.parse`-with-catch oracle. -/
def afterPrimary (parse : String → Option Json) (filePath tempFilePath cwd : String)
    (editorModeUsed : Bool) (res : CommandResult) : PostExecDecision :=
  if res.code = some (-1) then
    PostExecDecision.publishNow [createExecutionFailureDiagnostic res.code res.stderr]
  else
    let d1 := extractDiagnosticsForFile (parse res.stdout) filePath cwd
    let d2 :=
      if !editorModeUsed && d1.isEmpty then
        extractDiagnosticsForFile (parse res.stdout) tempFilePath cwd
      else d1
    let d3 := if d2.isEmpty then extractGlobalErrors (parse res.stdout) else d2
    if d3.isEmpty && res.code ≠ some 0 && trimStr res.stderr ≠ "" then
      if hasPhpSyntaxError res.stdout res.stderr then PostExecDecision.runFallback
      else PostExecDecision.publishNow [createExecutionFailureDiagnostic res.code res.stderr]
    else PostExecDecision.publishNow d3

/-- Lines 580-596 of phpstanDiagnostics.ts: the diagnostics published
after the saved-file fallback run completes and its staleness re-check
passed. -/
def afterFallback (parse : String → Option Json) (filePath fallbackCwd : String)
    (fallbackRes : CommandResult) : List Diagnostic :=
  let d1 := extractDiagnosticsForFile (parse fallbackRes.stdout) filePath fallbackCwd
  let d2 := if d1.isEmpty then extractGlobalErrors (parse fallbackRes.stdout) else d1
  if d2.isEmpty && fallbackRes.code ≠ some 0 && trimStr fallbackRes.stderr ≠ "" then
    [createExecutionFailureDiagnostic fallbackRes.code fallbackRes.stderr]
  else d2

/-- Externally observable effects of one `runForDocument` call. -/
inductive RunEvent where
  | publish (uri : String) (diags : List Diagnostic)
  | cleanup (path : String)
deriving DecidableEq, Repr

/-- The fixed data of one `runForDocument` call: the `JSON.parse` oracle,
the scheduled document's uri, the resolved file path, the snapshot path,
the working directories of the primary and fallback commands, and
whether editor mode was used.  The document's version is NOT part of
this record: `runForDocument` holds the live `TextDocument` instance and
each staleness check re-reads `document.version` at check time. -/
structure RunCtx where
  parse : String → Option Json
  uri : String
  filePath : String
  tempFilePath : String
  cwd : String
  fallbackCwd : String
  editorModeUsed : Bool

/-- Effect trace of `runForDocument` for a document whose uri resolves to
a file path, as a function of the three staleness checks (the versions
map compared with the live document version at lines 514, 538 and 576)
and the two process results.  The snapshot is created only after the
first check passes; the try/finally makes every later exit path end with
the recursive snapshot delete (`cleanupTempPhpFile`). -/
def runForDocumentEvents (ctx : RunCtx)
    (freshAtStart freshAfterPrimary freshAfterFallback : Bool)
    (primaryRes fallbackRes : CommandResult) : List RunEvent :=
  if !freshAtStart then []
  else
    let body :=
      if !freshAfterPrimary then []
      else
        match afterPrimary ctx.parse ctx.filePath ctx.tempFilePath ctx.cwd
            ctx.editorModeUsed primaryRes with
        | PostExecDecision.publishNow ds => [RunEvent.publish ctx.uri ds]
        | PostExecDecision.runFallback =>
          if !freshAfterFallback then []
          else [RunEvent.publish ctx.uri
            (afterFallback ctx.parse ctx.filePath ctx.fallbackCwd fallbackRes)]
    body ++ [RunEvent.cleanup ctx.tempFilePath]

/-! ### Scheduler staleness (schedule / runForDocument, phpstanDiagnostics.ts) -/

/-- Per-uri version map owned by the scheduler (`versions` in
`createPhpstanDiagnosticsService`). -/
def VersMap := List (String × Nat)

/-- `versions.get(uri)`. -/
def lookupVers (m : VersMap) (uri : String) : Option Nat :=
  ((m : List (String × Nat)).find? (fun e => e.1 == uri)).map (fun e => e.2)

/-- `versions.set(uri, v)`. -/
def setVers (m : VersMap) (uri : String) (v : Nat) : VersMap :=
  (uri, v) :: (m : List (String × Nat)).filter (fun e => e.1 != uri)

/-- `versions.delete(uri)` (the `clear` handler). -/
def removeVers (m : VersMap) (uri : String) : VersMap :=
  (m : List (String × Nat)).filter (fun e => e.1 != uri)

/-- Progress of one in-flight `runForDocument` call between its await
points. -/
inductive RunPhase where
  | initial
  | awaitingPrimary
  | awaitingFallback
  | finished (published : Option (List Diagnostic))
deriving DecidableEq

/-- Scheduler state visible to one run: the shared versions map, the
live version of the uri's `TextDocument`, and the run's phase.
`docVersion` models `document.version` of the single `TextDocument`
instance the `TextDocuments` manager owns: `TextDocument.update`
(vscode-languageserver-textdocument) mutates that instance in place on
every didChange, and both `schedule` (line 624) and the run's staleness
checks read this same live field — the run never captures a version of
its own. -/
structure SysState where
  versions : VersMap
  docVersion : Nat
  phase : RunPhase

/-- One event of the interleaved execution.  `mutateDoc v` is the
`TextDocuments` manager applying a didChange to the shared live
`TextDocument` instance (its `version` becomes `v`); in the real
didChange cascade it is immediately followed by `schedule uri v`, since
`schedule` records `document.version` read from the same instance.
Scheduler mutations may occur at any await boundary of the run; the
run's own steps are the synchronous segments between its awaits, each of
which begins by comparing `versions.get(uri)` with the live
`document.version`. -/
inductive SysEvent where
  | mutateDoc (version : Nat)
  | schedule (uri : String) (version : Nat)
  | clearUri (uri : String)
  | startRun
  | primaryDone (res : CommandResult)
  | fallbackDone (res : CommandResult)

/-- Interleaved small-step semantics of the document mutation,
`schedule`/`clear`, and the three synchronous segments of
`runForDocument` (lines 513-517, 538-575, 576-601 of
phpstanDiagnostics.ts).  Each segment's staleness check compares
`versions.get(uri)` with the LIVE `document.version`
(`s.docVersion`), exactly as the source's
`versions.get(document.uri) !== document.version` does on the shared
mutable document; a segment that observes a mismatch returns without
publishing (`finished none`). -/
def stepRun (ctx : RunCtx) (s : SysState) : SysEvent → SysState
  | SysEvent.mutateDoc v => { s with docVersion := v }
  | SysEvent.schedule u v => { s with versions := setVers s.versions u v }
  | SysEvent.clearUri u => { s with versions := removeVers s.versions u }
  | SysEvent.startRun =>
    match s.phase with
    | RunPhase.initial =>
      if lookupVers s.versions ctx.uri = some s.docVersion then
        { s with phase := RunPhase.awaitingPrimary }
      else { s with phase := RunPhase.finished none }
    | _ => s
  | SysEvent.primaryDone res =>
    match s.phase with
    | RunPhase.awaitingPrimary =>
      if lookupVers s.versions ctx.uri = some s.docVersion then
        match afterPrimary ctx.parse ctx.filePath ctx.tempFilePath ctx.cwd
            ctx.editorModeUsed res with
        | PostExecDecision.publishNow ds => { s with phase := RunPhase.finished (some ds) }
        | PostExecDecision.runFallback => { s with phase := RunPhase.awaitingFallback }
      else { s with phase := RunPhase.finished none }
    | _ => s
  | SysEvent.fallbackDone res =>
    match s.phase with
    | RunPhase.awaitingFallback =>
      if lookupVers s.versions ctx.uri = some s.docVersion then
        { s with phase :=
            RunPhase.finished (some (afterFallback ctx.parse ctx.filePath ctx.fallbackCwd res)) }
      else { s with phase := RunPhase.finished none }
    | _ => s

/-- Run a list of events from a state. -/
def runSteps (ctx : RunCtx) (s : SysState) : List SysEvent → SysState
  | [] => s
  | e :: es => runSteps ctx (stepRun ctx s e) es

/-- The run has published a result. -/
def hasPublished (s : SysState) : Prop :=
  ∃ ds, s.phase = RunPhase.finished (some ds)

/-! ### Bridge pending-request lifecycle (phpstanReflectionClient.ts) -/

/-- State of the reflection client's pending-request bookkeeping:
`inflight` are the ids currently in the `pending` map (each with its live
timer), `resolutions` the ids whose promise has been resolved, newest
first, and `sends` every id that was registered by `sendRequest`. -/
structure BridgeState where
  inflight : List String
  resolutions : List String
  sends : List String
deriving DecidableEq, Repr

/-- Initial bridge state: empty pending map, nothing sent or resolved. -/
def initBridge : BridgeState := { inflight := [], resolutions := [], sends := [] }

/-- Events acting on the pending map of phpstanReflectionClient.ts:
`send id` registers a pending entry with its timeout (lines 191-199);
`response id` is the read loop delivering a parsed response line (lines
140-155), a no-op for an unmatched id; `timerFire id` is the timeout
callback (lines 192-196), which can only run while the entry is still in
the map because every removal clears the timer; `workerDown` is
`clearPending` on worker exit or spawn error (lines 115-124), resolving
every pending entry. -/
inductive BridgeEvent where
  | send (id : String)
  | response (id : String)
  | timerFire (id : String)
  | workerDown

/-- One transition of the pending-request state machine. -/
def stepBridge (s : BridgeState) : BridgeEvent → BridgeState
  | BridgeEvent.send id =>
    { inflight := id :: s.inflight, resolutions := s.resolutions, sends := id :: s.sends }
  | BridgeEvent.response id =>
    if id ∈ s.inflight then
      { inflight := s.inflight.erase id, resolutions := id :: s.resolutions, sends := s.sends }
    else s
  | BridgeEvent.timerFire id =>
    if id ∈ s.inflight then
      { inflight := s.inflight.erase id, resolutions := id :: s.resolutions, sends := s.sends }
    else s
  | BridgeEvent.workerDown =>
    { inflight := [], resolutions := s.inflight ++ s.resolutions, sends := s.sends }

/-- Run a list of bridge events from a state. -/
def runBridge (s : BridgeState) : List BridgeEvent → BridgeState
  | [] => s
  | e :: es => runBridge (stepBridge s e) es

/-- The ids registered by the send events of an event list, newest
first. -/
def sentIds (events : List BridgeEvent) : List String :=
  (events.filterMap (fun e =>
    match e with
    | BridgeEvent.send id => some id
    | _ => none)).reverse

/-! ## Helper lemmas -/

theorem isPrefixOfB_append (xs ys : List Char) : isPrefixOfB xs (xs ++ ys) = true := by
  induction xs with
  | nil => rfl
  | cons a as ih => simp [isPrefixOfB, ih]

theorem containsSub_of_isPrefixOfB (n l : List Char) (h : isPrefixOfB n l = true) :
    containsSub n l = true := by
  cases l with
  | nil => simpa [containsSub] using h
  | cons c rest => simp [containsSub, h]

theorem containsSub_cons (n l : List Char) (c : Char) (h : containsSub n l = true) :
    containsSub n (c :: l) = true := by
  simp [containsSub, h]

theorem containsSub_append_left (n pre l : List Char) (h : containsSub n l = true) :
    containsSub n (pre ++ l) = true := by
  induction pre with
  | nil => simpa using h
  | cons c cs ih => simpa using containsSub_cons n (cs ++ l) c ih

theorem containsSub_middle (n pre post : List Char) :
    containsSub n (pre ++ n ++ post) = true := by
  have h1 : containsSub n (n ++ post) = true :=
    containsSub_of_isPrefixOfB n (n ++ post) (isPrefixOfB_append n post)
  simpa [List.append_assoc] using containsSub_append_left n pre (n ++ post) h1

theorem splitAtFirst_append (pre post : List Char)
    (h : '=' ∉ pre) : splitAtFirst '=' (pre ++ '=' :: post) = some (pre, post) := by
  induction pre with
  | nil => simp [splitAtFirst]
  | cons c cs ih =>
    have hc : c ≠ '=' := fun hc => h (hc ▸ List.mem_cons_self c cs)
    have hcs : '=' ∉ cs := fun hm => h (List.mem_cons_of_mem c hm)
    simp [splitAtFirst, hc, ih hcs]

theorem joinLines_mem (a : String) (L : List String) (h : a ∈ L) :
    ∃ pre post, joinLines L = pre ++ a ++ post := by
  induction L with
  | nil => cases h
  | cons b rest ih =>
    rcases List.mem_cons.mp h with rfl | hmem
    · cases rest with
      | nil => exact ⟨"", "", by simp [joinLines]⟩
      | cons c cs => exact ⟨"", "\n" ++ joinLines (c :: cs), by simp [joinLines, String.append_assoc]⟩
    · rcases ih hmem with ⟨pre, post, hpre⟩
      cases rest with
      | nil => cases hmem
      | cons c cs =>
        refine ⟨b ++ "\n" ++ pre, post, ?_⟩
        simp [joinLines, hpre, String.append_assoc]

theorem findIdx_sep (pre post : List String) (h : "--" ∉ pre) :
    (pre ++ "--" :: post).findIdx? (fun a => a == "--") = some pre.length := by
  induction pre with
  | nil => simp [List.findIdx?_cons]
  | cons a as ih =>
    have ha : a ≠ "--" := fun hc => h (hc ▸ List.mem_cons_self a as)
    have has : "--" ∉ as := fun hm => h (List.mem_cons_of_mem a hm)
    simp [List.findIdx?_cons, ha, ih has]

theorem drop_sep (pre post : List String) :
    (pre ++ "--" :: post).drop (pre.length + 1) = post := by
  have hsplit : pre ++ "--" :: post = (pre ++ ["--"]) ++ post := by simp
  have hlen : (pre ++ ["--"]).length = pre.length + 1 := by simp
  rw [hsplit, ← hlen, List.drop_left]

theorem splitByTargetSeparator_eq (pre post : List String) (h : "--" ∉ pre) :
    splitByTargetSeparator (pre ++ "--" :: post) = (pre, post) := by
  simp only [splitByTargetSeparator, findIdx_sep pre post h]
  rw [List.take_left, drop_sep]

theorem compareVersions_nonneg (a b c x y z : Nat) :
    0 ≤ compareVersions [a, b, c] [x, y, z] ↔
      (x < a ∨ (a = x ∧ (y < b ∨ (b = y ∧ z ≤ c)))) := by
  simp only [compareVersions, allZero, Bool.and_true, beq_iff_eq]
  split_ifs <;> omega

/-! ## Claim theorems -/

/-- C7: `formatCommandForLog` masks the `--flag value` form (the token
following a sensitive flag becomes the constant mask), masks the
`--flag=value` form (the value after `=` becomes the mask when the
lowercased key contains a sensitive key name), matched case-insensitively,
leaves a token untouched when its key is not sensitive, and renders the
claimed example as `phpstan analyze --api-key *** --token=***
--memory-limit=1G`. -/
theorem C7_log_redaction :
    (∀ (flag value : String) (rest : List String), lowerStr flag ∈ sensitiveFlags →
      maskCommandArgsAux false (flag :: value :: rest) =
        flag :: "***" :: maskCommandArgsAux false rest)
  ∧ (∀ pre post : List Char, '=' ∉ pre →
      sensitiveKeys.any (fun k => containsSub k.data (pre.map Char.toLower)) = true →
      maskArgumentToken (String.mk (pre ++ '=' :: post)) = String.mk (pre ++ ['=']) ++ "***")
  ∧ (∀ (token : String) (rest : List String), lowerStr token ∉ sensitiveFlags →
      maskCommandArgsAux false (token :: rest) =
        maskArgumentToken token :: maskCommandArgsAux false rest)
  ∧ (∀ pre post : List Char, '=' ∉ pre →
      sensitiveKeys.any (fun k => containsSub k.data (pre.map Char.toLower)) = false →
      maskArgumentToken (String.mk (pre ++ '=' :: post)) = String.mk (pre ++ '=' :: post))
  ∧ (∀ token : String, splitAtFirst '=' token.data = none → maskArgumentToken token = token)
  ∧ formatCommandForLog "phpstan"
      ["analyze", "--api-key", "abc123", "--token=xyz", "--memory-limit=1G"] =
      "phpstan analyze --api-key *** --token=*** --memory-limit=1G" := by
  refine ⟨?_, ?_, ?_, ?_, ?_, by decide⟩
  · intro flag value rest h
    simp [maskCommandArgsAux, h]
  · intro pre post hpre h
    have hd : (String.mk (pre ++ '=' :: post)).data = pre ++ '=' :: post := rfl
    simp [maskArgumentToken, hd, splitAtFirst_append pre post hpre, h]
  · intro token rest h
    simp [maskCommandArgsAux, h]
  · intro pre post hpre h
    have hd : (String.mk (pre ++ '=' :: post)).data = pre ++ '=' :: post := rfl
    simp [maskArgumentToken, hd, splitAtFirst_append pre post hpre, h]
  · intro token h
    simp [maskArgumentToken, h]

/-- Witness for C7 at concrete inputs: the `--flag value` clause applied
to `--token secretvalue`. -/
theorem C7_log_redaction_witness :
    maskCommandArgsAux false ["--token", "secretvalue"] = ["--token", "***"] := by
  have h := C7_log_redaction.1 "--token" "secretvalue" [] (by decide)
  simpa [maskCommandArgs, maskCommandArgsAux] using h

/-- C5: `isPhpstanEditorModeSupported` returns true for a version string
carrying the `-dev@` development-snapshot marker; otherwise it extracts
the first `major.minor.patch` token and returns true iff (major 1 and
version at least 1.12.27) or (major 2 and version at least 2.1.17) or
major above 2; it returns false when no such token exists; and a version
probe exiting non-zero is classified unsupported regardless of output.
The scenario E examples evaluate as claimed. -/
theorem C5_editor_mode_support :
    (∀ s : String, containsSub "-dev@".data s.data = true →
      isPhpstanEditorModeSupported s = true)
  ∧ (∀ s : String, containsSub "-dev@".data s.data = false →
      extractSemver s.data = none → isPhpstanEditorModeSupported s = false)
  ∧ (∀ (s : String) (M m p : Nat), containsSub "-dev@".data s.data = false →
      extractSemver s.data = some (M, m, p) →
      (isPhpstanEditorModeSupported s = true ↔
        (M = 1 ∧ (12 < m ∨ (m = 12 ∧ 27 ≤ p))) ∨
        (M = 2 ∧ (1 < m ∨ (m = 1 ∧ 17 ≤ p))) ∨ 2 < M))
  ∧ (∀ (code : Option Int) (out : String), code ≠ some 0 →
      probeSupported code out = false)
  ∧ (isPhpstanEditorModeSupported "PHPStan - PHP Static Analysis Tool 1.12.27" = true
      ∧ isPhpstanEditorModeSupported "PHPStan - PHP Static Analysis Tool 1.12.26" = false
      ∧ isPhpstanEditorModeSupported "PHPStan - PHP Static Analysis Tool 2.1.17" = true
      ∧ isPhpstanEditorModeSupported "PHPStan - PHP Static Analysis Tool 3.0.0" = true) := by
  refine ⟨?_, ?_, ?_, ?_, by decide⟩
  · intro s h
    simp [isPhpstanEditorModeSupported, h]
  · intro s hdev hsem
    simp [isPhpstanEditorModeSupported, hdev, hsem]
  · intro s M m p hdev hsem
    simp only [isPhpstanEditorModeSupported, hdev, Bool.false_eq_true, if_false, hsem,
      MIN_SUPPORTED_V1, MIN_SUPPORTED_V2]
    split_ifs with h1 h2
    · subst h1
      rw [decide_eq_true_iff, compareVersions_nonneg]
      omega
    · subst h2
      rw [decide_eq_true_iff, compareVersions_nonneg]
      omega
    · rw [decide_eq_true_iff]
      omega
  · intro code out h
    have hb : (code == some 0) = false := by
      simpa using h
    simp [probeSupported, hb]

/-- Witness for C5 at concrete inputs: a probe that exits with code 1 is
unsupported even for a supported version string. -/
theorem C5_editor_mode_support_witness :
    probeSupported (some 1) "PHPStan - PHP Static Analysis Tool 3.0.0" = false :=
  C5_editor_mode_support.2.2.2.1 (some 1)
    "PHPStan - PHP Static Analysis Tool 3.0.0" (by decide)

theorem containsStr_middle (pre mid post : String) :
    containsSub mid.data (pre ++ mid ++ post).data = true := by
  have hd : (pre ++ mid ++ post).data = pre.data ++ mid.data ++ post.data := by
    simp [String.data_append]
  rw [hd]
  exact containsSub_middle mid.data pre.data post.data

/-- The scenario A output of the spec: one file entry for
`/repo/src/Foo.php` with one message carrying line 10 and identifier and
tip fields. -/
def scenarioAOutput : Json :=
  Json.obj [("files", Json.obj [("/repo/src/Foo.php", Json.obj [("messages",
    Json.arr [Json.obj [("message", Json.str "Parameter $x has invalid type."),
      ("line", Json.num 10), ("identifier", Json.str "parameter.type"),
      ("tip", Json.str "Use int")]])])])]

/-- C8: a file message with a numeric 1-based line `n` maps to a
diagnostic starting at line `max 0 (n-1)`; non-empty string
`identifier`/`tip` fields are appended to the message as auxiliary
`identifier: ...` and `tip: ...` lines; and the scenario A output yields
exactly one diagnostic at start line 9 whose message contains
`identifier: parameter.type` and `tip: Use int`. -/
theorem C8_diagnostic_mapping :
    (∀ (entry : List (String × Json)) (msg : String) (n : Int),
      getField entry "message" = some (Json.str msg) → msg ≠ "" →
      getField entry "line" = some (Json.num n) →
      ∃ d, toDiagnostic entry = some d ∧ d.range.start.line = max 0 (n - 1))
  ∧ (∀ (entry : List (String × Json)) (msg i : String),
      getField entry "message" = some (Json.str msg) → msg ≠ "" →
      getField entry "identifier" = some (Json.str i) → i ≠ "" →
      ∃ d, toDiagnostic entry = some d ∧
        containsSub ("identifier: " ++ i).data d.message.data = true)
  ∧ (∀ (entry : List (String × Json)) (msg t : String),
      getField entry "message" = some (Json.str msg) → msg ≠ "" →
      getField entry "tip" = some (Json.str t) → t ≠ "" →
      ∃ d, toDiagnostic entry = some d ∧
        containsSub ("tip: " ++ t).data d.message.data = true)
  ∧ (∃ d, extractDiagnosticsForFile (some scenarioAOutput) "/repo/src/Foo.php" "/repo" = [d]
      ∧ d.range.start.line = 9
      ∧ containsSub "identifier: parameter.type".data d.message.data = true
      ∧ containsSub "tip: Use int".data d.message.data = true) := by
  have note_contains : ∀ (entry : List (String × Json)) (msg a : String),
      getField entry "message" = some (Json.str msg) → msg ≠ "" →
      a ∈ noteLines entry →
      ∃ d, toDiagnostic entry = some d ∧ containsSub a.data d.message.data = true := by
    intro entry msg a hmsg hne hmem
    have hnil : (noteLines entry).isEmpty = false := by
      cases hnl : noteLines entry with
      | nil => rw [hnl] at hmem; cases hmem
      | cons b bs => simp
    obtain ⟨pre, post, hj⟩ := joinLines_mem a (noteLines entry) hmem
    refine ⟨{ severity := 1,
              range := { start := { line := max 0 (rawLineOf entry - 1), character := 0 },
                         stop := { line := max 0 (rawLineOf entry - 1), character := 1 } },
              message := msg ++ ("\n" ++ joinLines (noteLines entry)),
              source := "phpstan" }, ?_, ?_⟩
    · simp [toDiagnostic, hmsg, hne, hnil]
    · show containsSub a.data ((msg ++ ("\n" ++ joinLines (noteLines entry)))).data = true
      rw [hj]
      have hassoc : msg ++ ("\n" ++ (pre ++ a ++ post)) =
          (msg ++ "\n" ++ pre) ++ a ++ post := by
        simp [String.append_assoc]
      rw [hassoc]
      exact containsStr_middle (msg ++ "\n" ++ pre) a post
  refine ⟨?_, ?_, ?_, ?_⟩
  · intro entry msg n hmsg hne hline
    have hraw : rawLineOf entry = n := by simp [rawLineOf, hline]
    refine ⟨{ severity := 1,
              range := { start := { line := max 0 (n - 1), character := 0 },
                         stop := { line := max 0 (n - 1), character := 1 } },
              message := msg ++ (if (noteLines entry).isEmpty then ""
                else "\n" ++ joinLines (noteLines entry)),
              source := "phpstan" }, ?_, rfl⟩
    simp [toDiagnostic, hmsg, hne, hraw]
  · intro entry msg i hmsg hne hid hi
    refine note_contains entry msg ("identifier: " ++ i) hmsg hne ?_
    simp [noteLines, hid, hi]
  · intro entry msg t hmsg hne htip ht
    refine note_contains entry msg ("tip: " ++ t) hmsg hne ?_
    simp [noteLines, htip, ht]
  · refine ⟨{ severity := 1,
              range := { start := { line := 9, character := 0 },
                         stop := { line := 9, character := 1 } },
              message := "Parameter $x has invalid type.\nidentifier: parameter.type\ntip: Use int",
              source := "phpstan" }, by decide, by decide, by decide, by decide⟩

/-- Witness for C8 at concrete inputs: the line-mapping clause applied to
the scenario A message entry, whose 1-based line 10 yields start line 9. -/
theorem C8_diagnostic_mapping_witness :
    ∃ d, toDiagnostic [("message", Json.str "Parameter $x has invalid type."),
        ("line", Json.num 10), ("identifier", Json.str "parameter.type"),
        ("tip", Json.str "Use int")] = some d ∧
      d.range.start.line = max 0 (10 - 1) :=
  C8_diagnostic_mapping.1
    [("message", Json.str "Parameter $x has invalid type."),
     ("line", Json.num 10), ("identifier", Json.str "parameter.type"),
     ("tip", Json.str "Use int")]
    "Parameter $x has invalid type." 10 rfl (by decide) rfl

/-- C9: on a parse outcome that is a caught `JSON.parse` failure (the
model of malformed input such as `"not-json"`) or any non-object JSON
value, both extraction functions return the empty list; being total Lean
functions they throw nothing on any input. -/
theorem C9_parser_totality :
    ∀ (parsed : Option Json) (target cwd : String),
      (match parsed with | some (Json.obj _) => False | _ => True) →
      extractDiagnosticsForFile parsed target cwd = [] ∧ extractGlobalErrors parsed = [] := by
  intro parsed target cwd h
  cases parsed with
  | none => exact ⟨rfl, rfl⟩
  | some j =>
    cases j with
    | null => exact ⟨rfl, rfl⟩
    | bool b => exact ⟨rfl, rfl⟩
    | num n => exact ⟨rfl, rfl⟩
    | str s => exact ⟨rfl, rfl⟩
    | arr items => exact ⟨rfl, rfl⟩
    | obj fields => cases h

/-- Witness for C9 at a concrete input: the parse outcome of the
malformed text `"not-json"` (a caught exception, `none`) yields empty
results from both extractors. -/
theorem C9_parser_totality_witness :
    extractDiagnosticsForFile none "/repo/src/Foo.php" "/repo" = [] ∧
      extractGlobalErrors none = [] :=
  C9_parser_totality none "/repo/src/Foo.php" "/repo" trivial

/-- C10: every diagnostic the system produces — from file messages,
global errors, or execution failures — has severity 1 (Error), start
character 0 and end character 1 on the same single line; and a file
message whose `line` field is absent or not a number is not dropped: it
defaults to 1-based line 1 and yields a diagnostic anchored at line 0. -/
theorem C10_diagnostic_shape :
    (∀ (entry : List (String × Json)) (d : Diagnostic), toDiagnostic entry = some d →
      d.severity = 1 ∧ d.range.start.character = 0 ∧ d.range.stop.character = 1 ∧
        d.range.stop.line = d.range.start.line)
  ∧ (∀ (code : Option Int) (stderr : String),
      (createExecutionFailureDiagnostic code stderr).severity = 1 ∧
      (createExecutionFailureDiagnostic code stderr).range =
        { start := { line := 0, character := 0 }, stop := { line := 0, character := 1 } })
  ∧ (∀ msg : String,
      (createGlobalErrorDiagnostic msg).severity = 1 ∧
      (createGlobalErrorDiagnostic msg).range =
        { start := { line := 0, character := 0 }, stop := { line := 0, character := 1 } })
  ∧ (∀ (entry : List (String × Json)) (msg : String),
      getField entry "message" = some (Json.str msg) → msg ≠ "" →
      (match getField entry "line" with | some (Json.num _) => False | _ => True) →
      ∃ d, toDiagnostic entry = some d ∧ d.range.start.line = 0) := by
  refine ⟨?_, fun code stderr => ⟨rfl, rfl⟩, fun msg => ⟨rfl, rfl⟩, ?_⟩
  · intro entry d h
    simp only [toDiagnostic] at h
    split at h
    · split at h
      · cases h
      · obtain rfl := (Option.some.inj h).symm
        exact ⟨rfl, rfl, rfl, rfl⟩
    · cases h
  · intro entry msg hmsg hne hln
    have hraw : rawLineOf entry = 1 := by
      simp only [rawLineOf]
      split
      · next n heq => rw [heq] at hln; exact hln.elim
      · rfl
    refine ⟨{ severity := 1,
              range := { start := { line := 0, character := 0 },
                         stop := { line := 0, character := 1 } },
              message := msg ++ (if (noteLines entry).isEmpty then ""
                else "\n" ++ joinLines (noteLines entry)),
              source := "phpstan" }, ?_, rfl⟩
    simp [toDiagnostic, hmsg, hne, hraw]

/-- Witness for C10 at a concrete input: a message entry with no `line`
field yields a diagnostic anchored at line 0. -/
theorem C10_diagnostic_shape_witness :
    ∃ d, toDiagnostic [("message", Json.str "boom")] = some d ∧
      d.range.start.line = 0 :=
  C10_diagnostic_shape.2.2.2 [("message", Json.str "boom")] "boom" rfl (by decide) trivial

/-- Counterexample to C2 as stated: a run whose process exits with code
2, with empty stdout and empty stderr, yields no per-file diagnostics, no
temp-path diagnostics, no global errors and no syntax-error signal, yet
`runForDocument` publishes the empty set — not a synthesized failure
diagnostic — because the failure branch additionally requires
`result.stderr.trim().length > 0`.  The user does receive silence for
this failed run. -/
theorem C2_counterexample :
    afterPrimary (fun _ => none) "/repo/src/Foo.php" "/tmp/snap/buffer.php" "/repo" false
      { code := some 2, stdout := "", stderr := "" } = PostExecDecision.publishNow []
  ∧ (some (2 : Int) ≠ some (0 : Int))
  ∧ extractDiagnosticsForFile ((fun (_ : String) => (none : Option Json)) "") "/repo/src/Foo.php" "/repo" = []
  ∧ extractDiagnosticsForFile ((fun (_ : String) => (none : Option Json)) "") "/tmp/snap/buffer.php" "/repo" = []
  ∧ extractGlobalErrors ((fun (_ : String) => (none : Option Json)) "") = []
  ∧ hasPhpSyntaxError "" "" = false := by
  refine ⟨rfl, by decide, rfl, rfl, rfl, by decide⟩

/-- C2 (amended): for every run whose process exits non-zero, whose
output yields no per-file, temp-path, or global diagnostics, with no
syntax-error signal, and whose stderr trims to a non-empty string, the
published set is exactly one synthesized execution-failure diagnostic
built by `createExecutionFailureDiagnostic` from the first non-empty
stderr line.  (When stderr trims to empty, the empty set is published
instead — see the counterexample.) -/
theorem C2_execution_failure_publish :
    ∀ (parse : String → Option Json) (filePath tempFilePath cwd : String)
      (editorModeUsed : Bool) (res : CommandResult),
      res.code ≠ some 0 →
      extractDiagnosticsForFile (parse res.stdout) filePath cwd = [] →
      extractDiagnosticsForFile (parse res.stdout) tempFilePath cwd = [] →
      extractGlobalErrors (parse res.stdout) = [] →
      hasPhpSyntaxError res.stdout res.stderr = false →
      trimStr res.stderr ≠ "" →
      afterPrimary parse filePath tempFilePath cwd editorModeUsed res =
        PostExecDecision.publishNow [createExecutionFailureDiagnostic res.code res.stderr] := by
  intro parse filePath tempFilePath cwd editorModeUsed res hcode h1 h2 h3 hsyn htrim
  by_cases hspawn : res.code = some (-1)
  · simp [afterPrimary, hspawn]
  · simp [afterPrimary, hspawn, h1, h2, h3, hsyn, hcode, htrim]

/-- Witness for the amended C2 at concrete inputs: exit code 2 with
stderr `boom` publishes exactly the synthesized failure diagnostic. -/
theorem C2_execution_failure_publish_witness :
    afterPrimary (fun _ => none) "/repo/src/Foo.php" "/tmp/snap/buffer.php" "/repo" false
      { code := some 2, stdout := "", stderr := "boom" } =
      PostExecDecision.publishNow
        [createExecutionFailureDiagnostic (some 2) "boom"] :=
  C2_execution_failure_publish (fun _ => none) "/repo/src/Foo.php" "/tmp/snap/buffer.php"
    "/repo" false { code := some 2, stdout := "", stderr := "boom" }
    (by decide) rfl rfl rfl (by decide) (by decide)

/-- C3: every analysis run that creates the buffer snapshot (the first
staleness check passed, so `buildAnalyzeCommandForDocument` ran
`createTempPhpFile`) ends with the recursive delete of the snapshot
directory, on every exit path — successful publish, empty or unparseable
output, stale-result discard, spawn failure, and the fallback re-run
alike: the event trace always ends with the cleanup event, preceded only
by publish events.  A run whose first check fails creates no snapshot
and emits no events. -/
theorem C3_snapshot_release :
    ∀ (ctx : RunCtx) (freshAfterPrimary freshAfterFallback : Bool)
      (primaryRes fallbackRes : CommandResult),
      (∃ body, runForDocumentEvents ctx true freshAfterPrimary freshAfterFallback
            primaryRes fallbackRes =
          body ++ [RunEvent.cleanup ctx.tempFilePath] ∧
        ∀ e ∈ body, ∃ ds, e = RunEvent.publish ctx.uri ds) ∧
      runForDocumentEvents ctx false freshAfterPrimary freshAfterFallback
        primaryRes fallbackRes = [] := by
  intro ctx fA fF pRes fRes
  refine ⟨?_, rfl⟩
  cases fA with
  | false =>
    exact ⟨[], by simp [runForDocumentEvents], fun e he => absurd he (by simp)⟩
  | true =>
    cases hdec : afterPrimary ctx.parse ctx.filePath ctx.tempFilePath ctx.cwd
        ctx.editorModeUsed pRes with
    | publishNow ds =>
      refine ⟨[RunEvent.publish ctx.uri ds], ?_, ?_⟩
      · simp [runForDocumentEvents, hdec]
      · intro e he
        rcases List.mem_singleton.mp he with rfl
        exact ⟨ds, rfl⟩
    | runFallback =>
      cases fF with
      | false =>
        exact ⟨[], by simp [runForDocumentEvents, hdec], fun e he => absurd he (by simp)⟩
      | true =>
        refine ⟨[RunEvent.publish ctx.uri
          (afterFallback ctx.parse ctx.filePath ctx.fallbackCwd fRes)], ?_, ?_⟩
        · simp [runForDocumentEvents, hdec]
        · intro e he
          rcases List.mem_singleton.mp he with rfl
          exact ⟨_, rfl⟩

/-- The PHPStan JSON output produced by the analysis of the version-1
buffer in the stale-publish scenario: one message for the original file
path.  Braces are written as hex escapes. -/
def staleOutputText : String :=
  "\x7b\"files\":\x7b\"/repo/src/Foo.php\":\x7b\"messages\":[\x7b\"message\":\"stale\",\"line\":1\x7d]\x7d\x7d\x7d"

/-- The parsed form of `staleOutputText`. -/
def staleOutputJson : Json :=
  Json.obj [("files", Json.obj [("/repo/src/Foo.php", Json.obj [("messages",
    Json.arr [Json.obj [("message", Json.str "stale"), ("line", Json.num 1)]])])])]

/-- `JSON.parse` oracle for the stale-publish scenario: parses exactly
the version-1 output text. -/
def staleParse : String → Option Json := fun s =>
  if s = staleOutputText then some staleOutputJson else none

/-- The run context of the stale-publish scenario. -/
def staleRunCtx : RunCtx :=
  { parse := staleParse, uri := "file:///repo/src/Foo.php",
    filePath := "/repo/src/Foo.php", tempFilePath := "/tmp/snap/buffer.php",
    cwd := "/repo", fallbackCwd := "/repo", editorModeUsed := true }

/-- The stale-publish scenario: the document is open at version 1 and
scheduled (versions map holds 1, live document.version is 1); the run
starts and snapshots the v1 buffer; while the external process runs, a
didChange mutates the shared document to version 2 and its cascade calls
`schedule`, which records `document.version = 2`; then the v1 process
completes with the v1 buffer's diagnostics. -/
def staleRunEvents : List SysEvent :=
  [SysEvent.startRun,
   SysEvent.mutateDoc 2,
   SysEvent.schedule "file:///repo/src/Foo.php" 2,
   SysEvent.primaryDone { code := some 0, stdout := staleOutputText, stderr := "" }]

/-- C1: demonstration that the claimed staleness suppression fails in
the code.  `schedule` stores `document.version` read from the same
in-place-mutated `TextDocument` instance that the staleness checks read,
so after a mid-run edit to version 2 the post-execution check compares
2 with 2 and passes, and the run publishes the non-empty diagnostics
computed from the version-1 buffer — exactly what the claim says can
never happen once version 2 was recorded (here version 2 was recorded
while the run was still awaiting its process, before any publish). -/
theorem C1_stale_publish_bug :
    (runSteps staleRunCtx
        { versions := [("file:///repo/src/Foo.php", 1)], docVersion := 1,
          phase := RunPhase.initial } staleRunEvents).phase =
      RunPhase.finished
        (some (extractDiagnosticsForFile (some staleOutputJson) "/repo/src/Foo.php" "/repo"))
    ∧ extractDiagnosticsForFile (some staleOutputJson) "/repo/src/Foo.php" "/repo" ≠ []
    ∧ lookupVers
        (runSteps staleRunCtx
          { versions := [("file:///repo/src/Foo.php", 1)], docVersion := 1,
            phase := RunPhase.initial }
          [SysEvent.startRun, SysEvent.mutateDoc 2,
           SysEvent.schedule "file:///repo/src/Foo.php" 2]).versions
        "file:///repo/src/Foo.php" = some 2
    ∧ (runSteps staleRunCtx
        { versions := [("file:///repo/src/Foo.php", 1)], docVersion := 1,
          phase := RunPhase.initial }
        [SysEvent.startRun, SysEvent.mutateDoc 2,
         SysEvent.schedule "file:///repo/src/Foo.php" 2]).phase =
      RunPhase.awaitingPrimary := by
  refine ⟨?_, by decide, by decide, by decide⟩
  decide

theorem stepBridge_perm (s : BridgeState) (e : BridgeEvent)
    (h : (s.inflight ++ s.resolutions).Perm s.sends) :
    ((stepBridge s e).inflight ++ (stepBridge s e).resolutions).Perm (stepBridge s e).sends := by
  cases e with
  | send id =>
    simpa [stepBridge] using h.cons id
  | response id =>
    by_cases hid : id ∈ s.inflight
    · have hperm : (s.inflight.erase id ++ id :: s.resolutions).Perm
          (s.inflight ++ s.resolutions) :=
        (List.perm_middle).trans
          ((List.perm_cons_erase hid).append_right s.resolutions).symm
      simpa [stepBridge, hid] using hperm.trans h
    · simpa [stepBridge, hid] using h
  | timerFire id =>
    by_cases hid : id ∈ s.inflight
    · have hperm : (s.inflight.erase id ++ id :: s.resolutions).Perm
          (s.inflight ++ s.resolutions) :=
        (List.perm_middle).trans
          ((List.perm_cons_erase hid).append_right s.resolutions).symm
      simpa [stepBridge, hid] using hperm.trans h
    · simpa [stepBridge, hid] using h
  | workerDown =>
    simpa [stepBridge] using h

theorem runBridge_perm (events : List BridgeEvent) (s : BridgeState)
    (h : (s.inflight ++ s.resolutions).Perm s.sends) :
    ((runBridge s events).inflight ++ (runBridge s events).resolutions).Perm
      (runBridge s events).sends := by
  induction events generalizing s with
  | nil => exact h
  | cons e rest ih => exact ih (stepBridge s e) (stepBridge_perm s e h)

theorem runBridge_append (s : BridgeState) (es1 es2 : List BridgeEvent) :
    runBridge s (es1 ++ es2) = runBridge (runBridge s es1) es2 := by
  induction es1 generalizing s with
  | nil => rfl
  | cons e rest ih => exact ih (stepBridge s e)

/-- C6: with distinct request ids (the source generates them uniquely),
every id registered by `send` is, at any point, either still pending or
resolved — never both, never twice: the in-flight ids and the resolved
ids together are a permutation of the sent ids, the resolved list has no
duplicates, a resolved id is no longer in the pending map (no leak), and
after a worker exit (`clearPending`) the resolved ids are exactly the
sent ids, each resolved once.  Resolution happens only through a
matching response, the timeout, or worker termination — the three
`stepBridge` transitions that move an id out of `inflight`. -/
theorem C6_bridge_pending_lifecycle :
    ∀ events : List BridgeEvent,
      (runBridge initBridge events).sends.Nodup →
      ((runBridge initBridge events).inflight ++
          (runBridge initBridge events).resolutions).Perm
        (runBridge initBridge events).sends
      ∧ (runBridge initBridge events).resolutions.Nodup
      ∧ (∀ id ∈ (runBridge initBridge events).resolutions,
          id ∉ (runBridge initBridge events).inflight)
      ∧ (runBridge initBridge (events ++ [BridgeEvent.workerDown])).resolutions.Perm
          (runBridge initBridge events).sends := by
  intro events hnd
  have hperm := runBridge_perm events initBridge (by simp [initBridge])
  have hndall : ((runBridge initBridge events).inflight ++
      (runBridge initBridge events).resolutions).Nodup :=
    hperm.nodup_iff.mpr hnd
  obtain ⟨hinfl, hres, hdisj⟩ := List.nodup_append.mp hndall
  refine ⟨hperm, hres, ?_, ?_⟩
  · intro id hidres hidin
    exact hdisj hidin hidres
  · rw [runBridge_append]
    simpa [runBridge, stepBridge] using hperm

/-- Witness for C6 at concrete inputs: one request `a` whose timeout
fires; it is resolved exactly once and its pending entry is gone. -/
theorem C6_bridge_pending_lifecycle_witness :
    ((runBridge initBridge [BridgeEvent.send "a", BridgeEvent.timerFire "a"]).inflight ++
        (runBridge initBridge [BridgeEvent.send "a", BridgeEvent.timerFire "a"]).resolutions).Perm
      (runBridge initBridge [BridgeEvent.send "a", BridgeEvent.timerFire "a"]).sends
    ∧ (runBridge initBridge [BridgeEvent.send "a", BridgeEvent.timerFire "a"]).resolutions.Nodup
    ∧ (∀ id ∈ (runBridge initBridge [BridgeEvent.send "a", BridgeEvent.timerFire "a"]).resolutions,
        id ∉ (runBridge initBridge [BridgeEvent.send "a", BridgeEvent.timerFire "a"]).inflight)
    ∧ (runBridge initBridge ([BridgeEvent.send "a", BridgeEvent.timerFire "a"] ++
          [BridgeEvent.workerDown])).resolutions.Perm
        (runBridge initBridge [BridgeEvent.send "a", BridgeEvent.timerFire "a"]).sends :=
  C6_bridge_pending_lifecycle [BridgeEvent.send "a", BridgeEvent.timerFire "a"] (by decide)

/-- The leading args contributed by a user command override (empty when
no override is configured). -/
def overrideArgs : Option CommandOverride → List String
  | none => []
  | some ov => ov.args

theorem inject_before_sep (pre post inj : List String) (h : "--" ∉ pre) :
    injectArgsBeforeTargetSeparator (pre ++ "--" :: post) inj = pre ++ inj ++ "--" :: post := by
  by_cases hinj : inj.isEmpty
  · have : inj = [] := List.isEmpty_iff.mp hinj
    subst this
    simp [injectArgsBeforeTargetSeparator]
  · simp only [injectArgsBeforeTargetSeparator, hinj, Bool.false_eq_true, if_false,
      findIdx_sep pre post h, List.take_left, drop_sep]
    simp [List.append_assoc]

theorem analyzePipelineArgs (rt : ResolvedPhpstanRuntime) (st : PhpstanSettings) (fp : String)
    (h1 : "--" ∉ normalizeRuntimeArgs rt.runtimeArgs) :
    (buildAnalyzeCommandForSavedFile rt st fp).args =
      (overrideArgs st.commandOverride ++ (normalizeRuntimeArgs rt.runtimeArgs ++
        ["analyze", "--error-format=json", "--no-progress", "--no-interaction"] ++
        st.extraArgs)) ++ "--" :: [fp] := by
  have hpre : "--" ∉ normalizeRuntimeArgs rt.runtimeArgs ++
      ["analyze", "--error-format=json", "--no-progress", "--no-interaction"] := by
    simp only [List.mem_append]
    rintro (h | h)
    · exact h1 h
    · simp at h
  have hbase : (buildPhpstanAnalyzeCommand rt [fp] none "json" []).args =
      (normalizeRuntimeArgs rt.runtimeArgs ++
        ["analyze", "--error-format=json", "--no-progress", "--no-interaction"]) ++
        "--" :: [fp] := by
    simp [buildPhpstanAnalyzeCommand]
  have hinj : injectArgsBeforeTargetSeparator
      (buildPhpstanAnalyzeCommand rt [fp] none "json" []).args st.extraArgs =
      ((normalizeRuntimeArgs rt.runtimeArgs ++
        ["analyze", "--error-format=json", "--no-progress", "--no-interaction"]) ++
        st.extraArgs) ++ "--" :: [fp] := by
    rw [hbase, inject_before_sep _ _ _ hpre]
  cases hov : st.commandOverride with
  | none =>
    simp only [buildAnalyzeCommandForSavedFile, hov, applyCommandOverride, overrideArgs]
    rw [hinj]
    simp [List.append_assoc]
  | some ov =>
    simp only [buildAnalyzeCommandForSavedFile, hov, applyCommandOverride, overrideArgs]
    rw [hinj]
    simp [List.append_assoc]

/-- C4: analyze-command shape.  Injected extra args and user override
args land strictly before the literal `--` separator and the tokens
after the separator are never reordered, filtered, or altered
(`injectArgsBeforeTargetSeparator` keeps the separator suffix intact);
the editor-mode variant carries `--tmp-file <snapshot> --instead-of
<original>` before the separator with the original path as the sole
positional target after it, and the fallback variant instead has the
snapshot path as the sole positional target. -/
theorem C4_analyze_command_shape :
    (∀ pre post inj : List String, "--" ∉ pre →
      injectArgsBeforeTargetSeparator (pre ++ "--" :: post) inj =
        pre ++ inj ++ "--" :: post)
  ∧ (∀ (rt : ResolvedPhpstanRuntime) (st : PhpstanSettings) (fp tmp : String),
      "--" ∉ normalizeRuntimeArgs rt.runtimeArgs → "--" ∉ st.extraArgs →
      "--" ∉ overrideArgs st.commandOverride →
      (buildAnalyzeCommandForDocument rt st fp tmp true).args =
        (overrideArgs st.commandOverride ++ (normalizeRuntimeArgs rt.runtimeArgs ++
          ["analyze", "--error-format=json", "--no-progress", "--no-interaction"] ++
          st.extraArgs)) ++
          ["--tmp-file", tmp, "--instead-of", fp, "--", fp])
  ∧ (∀ (rt : ResolvedPhpstanRuntime) (st : PhpstanSettings) (fp tmp : String),
      "--" ∉ normalizeRuntimeArgs rt.runtimeArgs → "--" ∉ st.extraArgs →
      "--" ∉ overrideArgs st.commandOverride →
      (buildAnalyzeCommandForDocument rt st fp tmp false).args =
        (overrideArgs st.commandOverride ++ (normalizeRuntimeArgs rt.runtimeArgs ++
          ["analyze", "--error-format=json", "--no-progress", "--no-interaction"] ++
          st.extraArgs)) ++ ["--", tmp]) := by
  have hdoc : ∀ (rt : ResolvedPhpstanRuntime) (st : PhpstanSettings) (fp tmp : String)
      (em : Bool), buildAnalyzeCommandForDocument rt st fp tmp em =
        if em then applyEditorModeArgs (buildAnalyzeCommandForSavedFile rt st fp) tmp fp
        else applyTempFileFallbackArgs (buildAnalyzeCommandForSavedFile rt st fp) tmp :=
    fun rt st fp tmp em => rfl
  have hsplitpre : ∀ (rt : ResolvedPhpstanRuntime) (st : PhpstanSettings) (fp : String),
      "--" ∉ normalizeRuntimeArgs rt.runtimeArgs → "--" ∉ st.extraArgs →
      "--" ∉ overrideArgs st.commandOverride →
      splitByTargetSeparator (buildAnalyzeCommandForSavedFile rt st fp).args =
        (overrideArgs st.commandOverride ++ (normalizeRuntimeArgs rt.runtimeArgs ++
          ["analyze", "--error-format=json", "--no-progress", "--no-interaction"] ++
          st.extraArgs), [fp]) := by
    intro rt st fp h1 h2 h3
    rw [analyzePipelineArgs rt st fp h1]
    refine splitByTargetSeparator_eq _ _ (fun h => ?_)
    simp only [List.mem_append] at h
    rcases h with h | ((h | h) | h)
    · exact h3 h
    · exact h1 h
    · simp at h
    · exact h2 h
  refine ⟨inject_before_sep, ?_, ?_⟩
  · intro rt st fp tmp h1 h2 h3
    rw [hdoc rt st fp tmp true]
    simp only [if_true]
    simp only [applyEditorModeArgs, hsplitpre rt st fp h1 h2 h3]
  · intro rt st fp tmp h1 h2 h3
    rw [hdoc rt st fp tmp false]
    simp only [Bool.false_eq_true, if_false]
    simp only [applyTempFileFallbackArgs, hsplitpre rt st fp h1 h2 h3]

/-- Witness for C4 at concrete inputs: extra args and an override with
the editor-mode rewrite, for `/repo/src/Foo.php` with snapshot
`/tmp/snap/buffer.php`. -/
theorem C4_analyze_command_shape_witness :
    (buildAnalyzeCommandForDocument
        { commandName := "phpstan", runtimeArgs := ["analyse"], workingDirectory := "/repo" }
        { extraArgs := ["--level=max"],
          commandOverride := some { command := "php", args := ["phpstan.phar"] } }
        "/repo/src/Foo.php" "/tmp/snap/buffer.php" true).args =
      (overrideArgs (some { command := "php", args := ["phpstan.phar"] }) ++
        (normalizeRuntimeArgs ["analyse"] ++
          ["analyze", "--error-format=json", "--no-progress", "--no-interaction"] ++
          ["--level=max"])) ++
        ["--tmp-file", "/tmp/snap/buffer.php", "--instead-of", "/repo/src/Foo.php", "--",
          "/repo/src/Foo.php"] :=
  C4_analyze_command_shape.2.1
    { commandName := "phpstan", runtimeArgs := ["analyse"], workingDirectory := "/repo" }
    { extraArgs := ["--level=max"],
      commandOverride := some { command := "php", args := ["phpstan.phar"] } }
    "/repo/src/Foo.php" "/tmp/snap/buffer.php" (by decide) (by decide) (by decide)

end PhpstanLsLite
